import Mathlib

/-!
Shallow embedding of the canvas permission / sharing / asset layer of the
repository (source files: `src/docs/railway-nextjs-auth-guide.md` canvas
service section, `src/lib/assets.ts`, and the API route handlers).

The database is modelled as lists of rows; Prisma queries become
`List.find?` / `List.filter` over those rows; fallible operations return
`Except`; JavaScript numbers that can be negative are `Int`.
-/

/-- `PermissionLevel` from the source: the three share levels. -/
inductive PermissionLevel
  | VIEW
  | EDIT
  | ADMIN
deriving DecidableEq, Repr

open PermissionLevel

/-- `permissionLevels` map from `checkCanvasPermission`:
`{ 'VIEW': 1, 'EDIT': 2, 'ADMIN': 3 }`. -/
def permissionLevels : PermissionLevel → Nat
  | VIEW => 1
  | EDIT => 2
  | ADMIN => 3

/-- A record inside a tldraw document blob: the orphan sweep only looks at
`record.props.assetId`; `props` may be absent and `assetId` may be absent
(`Option`), mirroring the truthiness guards in `cleanupOrphanedAssets`. -/
structure RecProps where
  assetId : Option String
deriving DecidableEq, Repr

structure DocRecord where
  props : Option RecProps
deriving DecidableEq, Repr

/-- A `Canvas` row (fields the embedded operations read). -/
structure Canvas where
  id : String
  userId : String
  name : String
  description : Option String
  isPublic : Bool
  documentData : List DocRecord
  version : Nat
deriving DecidableEq, Repr

/-- A `CanvasShare` row; unique per `(canvasId, userId)` in the schema. -/
structure CanvasShare where
  canvasId : String
  userId : String
  permissionLevel : PermissionLevel
  sharedBy : String
deriving DecidableEq, Repr

/-- A `CanvasAsset` row. `assetId` is the external id referenced from
`documentData`; `fileSize` is a JS number persisted as BigInt. -/
structure CanvasAsset where
  id : String
  canvasId : String
  assetId : String
  r2Key : String
  publicUrl : String
  fileName : String
  fileType : String
  fileSize : Int
deriving DecidableEq, Repr

/-- The database state the embedded operations touch. -/
structure DB where
  canvases : List Canvas
  shares : List CanvasShare
  assets : List CanvasAsset
deriving DecidableEq, Repr

/-- `prisma.canvas.findUnique({ where: { id: canvasId } })`. -/
def findCanvas (db : DB) (canvasId : String) : Option Canvas :=
  db.canvases.find? (fun c => c.id = canvasId)

/-- The `shares: { where: { userId } }` include on a canvas lookup followed
by `canvas.shares[0]`: the user's share row on the canvas, if any. -/
def userShare (db : DB) (canvasId userId : String) : Option CanvasShare :=
  db.shares.find? (fun s => s.canvasId = canvasId && s.userId = userId)

/-- `checkCanvasPermission` from the canvas service: owner bypass, public
VIEW, then rank comparison on the user's share row. -/
def checkCanvasPermission (db : DB) (userId canvasId : String)
    (requiredLevel : PermissionLevel) : Bool :=
  match findCanvas db canvasId with
  | none => false
  | some canvas =>
    if canvas.userId = userId then true
    else if canvas.isPublic && requiredLevel = VIEW then true
    else
      match userShare db canvasId userId with
      | none => false
      | some share =>
        permissionLevels share.permissionLevel ≥ permissionLevels requiredLevel

/-- The spec's four-step algorithm, transcribed from its own words:
"1. If canvas absent → false. 2. If canvas.ownerId == userId → true.
3. If canvas.isPublic and requiredLevel == VIEW → true. 4. Else find the
user's share row; if absent → false; otherwise true iff
rank(share) ≥ rank(required)." Written independently of the code, to be
compared with `checkCanvasPermission`. -/
def specCheckPermission (db : DB) (userId canvasId : String)
    (requiredLevel : PermissionLevel) : Bool :=
  match findCanvas db canvasId with
  | none => false
  | some canvas =>
    if canvas.userId = userId then
      true
    else if canvas.isPublic = true ∧ requiredLevel = VIEW then
      true
    else
      match userShare db canvasId userId with
      | none => false
      | some share =>
        decide (permissionLevels share.permissionLevel ≥ permissionLevels requiredLevel)

/-! ## Canvas service operations -/

/-- `CanvasError` from the canvas service: message plus optional code. -/
structure CanvasError where
  message : String
  code : Option String
deriving DecidableEq, Repr

/-- The `CanvasMetadata` shape returned by the canvas operations (the
fields the embedding tracks). -/
structure CanvasMetadata where
  id : String
  name : String
  description : Option String
  isPublic : Bool
  version : Nat
  userId : String
deriving DecidableEq, Repr

def toMetadata (canvas : Canvas) : CanvasMetadata :=
  { id := canvas.id, name := canvas.name, description := canvas.description,
    isPublic := canvas.isPublic, version := canvas.version, userId := canvas.userId }

/-- `createCanvas`: inserts a fresh canvas row with `documentData: \x7b\x7d` and
`version: 1`. The database-generated row id is the `newId` parameter. -/
def createCanvas (db : DB) (userId newId name : String)
    (description : Option String) (isPublic : Bool) : DB × CanvasMetadata :=
  let canvas : Canvas :=
    { id := newId, userId := userId, name := name, description := description,
      isPublic := isPublic, documentData := [], version := 1 }
  ({ db with canvases := db.canvases ++ [canvas] }, toMetadata canvas)

/-- The row update performed by `saveCanvas`'s `prisma.canvas.update`: new
document, name only when truthy (`...(name && \x7b name \x7d)`), description
when defined (`...(description !== undefined && \x7b description \x7d)`), and
`version: \x7b increment: 1 \x7d`. -/
def applySave (canvas : Canvas) (document : List DocRecord)
    (name? : Option String) (description? : Option String) : Canvas :=
  { canvas with
    documentData := document
    name := match name? with
      | some n => if n = "" then canvas.name else n
      | none => canvas.name
    description := match description? with
      | some d => some d
      | none => canvas.description
    version := canvas.version + 1 }

/-- `prisma.canvas.update({ where: { id: canvasId }, data })`: rewrite the
row with the matching id. -/
def updateCanvasRow (db : DB) (canvasId : String) (f : Canvas → Canvas) : DB :=
  { db with canvases := db.canvases.map (fun c => if c.id = canvasId then f c else c) }

/-- `saveCanvas`: EDIT permission check (PERMISSION_DENIED on failure),
then update with version increment. The `none` row branch models the
update throwing when the row is absent (swallowed into the generic
`Failed to save canvas`); it is unreachable once the permission check has
passed. -/
def saveCanvas (db : DB) (userId canvasId : String) (document : List DocRecord)
    (name? : Option String) (description? : Option String) :
    Except CanvasError (DB × CanvasMetadata) :=
  if !(checkCanvasPermission db userId canvasId EDIT) then
    .error ⟨"Insufficient permissions to save canvas", some "PERMISSION_DENIED"⟩
  else
    match findCanvas db canvasId with
    | none => .error ⟨"Failed to save canvas", none⟩
    | some canvas =>
      .ok (updateCanvasRow db canvasId (fun c => applySave c document name? description?),
           toMetadata (applySave canvas document name? description?))

/-- `loadCanvas`: VIEW permission check (NOT_FOUND on failure — absence and
inaccessibility conflated), then the canvas with its asset rows. -/
structure LoadCanvasResponse where
  document : List DocRecord
  metadata : CanvasMetadata
  assets : List CanvasAsset
deriving DecidableEq, Repr

def loadCanvas (db : DB) (userId canvasId : String) :
    Except CanvasError LoadCanvasResponse :=
  if !(checkCanvasPermission db userId canvasId VIEW) then
    .error ⟨"Canvas not found or access denied", some "NOT_FOUND"⟩
  else
    match findCanvas db canvasId with
    | none => .error ⟨"Canvas not found", some "NOT_FOUND"⟩
    | some canvas =>
      .ok ⟨canvas.documentData, toMetadata canvas,
           db.assets.filter (fun a => a.canvasId = canvasId)⟩

/-- `prisma.canvas.findUnique({ where: { id: canvasId, userId: ownerId } })`:
the owner check shared by `shareCanvas`, `removeCanvasShare` and
`getCanvasShares`. -/
def findCanvasOwned (db : DB) (canvasId ownerId : String) : Option Canvas :=
  db.canvases.find? (fun c => c.id = canvasId && c.userId = ownerId)

/-- `shareCanvas`: owner-only; upserts the `(canvasId, targetUserId)` share
row (update its level when present, create it otherwise), returning the
upserted row. -/
def shareCanvas (db : DB) (ownerId canvasId targetUserId : String)
    (permissionLevel : PermissionLevel) :
    Except CanvasError (DB × CanvasShare) :=
  match findCanvasOwned db canvasId ownerId with
  | none => .error ⟨"Canvas not found or access denied", some "NOT_FOUND"⟩
  | some _ =>
    match userShare db canvasId targetUserId with
    | some s0 =>
      .ok ({ db with shares := db.shares.map (fun s =>
               if s.canvasId = canvasId && s.userId = targetUserId then
                 { s with permissionLevel := permissionLevel }
               else s) },
           { s0 with permissionLevel := permissionLevel })
    | none =>
      let share : CanvasShare :=
        { canvasId := canvasId, userId := targetUserId,
          permissionLevel := permissionLevel, sharedBy := ownerId }
      .ok ({ db with shares := db.shares ++ [share] }, share)

/-- `removeCanvasShare`: owner-only; deletes the `(canvasId, targetUserId)`
share row. `prisma.canvasShare.delete` throws when the row is absent; that
throw is swallowed into the generic `Failed to remove canvas share`. -/
def removeCanvasShare (db : DB) (ownerId canvasId targetUserId : String) :
    Except CanvasError DB :=
  match findCanvasOwned db canvasId ownerId with
  | none => .error ⟨"Canvas not found or access denied", some "NOT_FOUND"⟩
  | some _ =>
    match userShare db canvasId targetUserId with
    | none => .error ⟨"Failed to remove canvas share", none⟩
    | some _ =>
      .ok { db with shares := db.shares.filter (fun s =>
              !(s.canvasId = canvasId && s.userId = targetUserId)) }

/-- Iterate `saveCanvas` with a fixed editor, canvas and document: the
"N successful saves" of the spec's version property. -/
def saveCanvasN (userId canvasId : String) (document : List DocRecord) :
    Nat → DB → Except CanvasError DB
  | 0, db => .ok db
  | n + 1, db =>
    match saveCanvas db userId canvasId document none none with
    | .error e => .error e
    | .ok (db1, _) => saveCanvasN userId canvasId document n db1

/-- C1: `checkCanvasPermission` returns exactly the result of the spec's
four-step algorithm, for every database, user, canvas id and required
level. -/
theorem checkCanvasPermission_eq_spec (db : DB) (userId canvasId : String)
    (requiredLevel : PermissionLevel) :
    checkCanvasPermission db userId canvasId requiredLevel =
      specCheckPermission db userId canvasId requiredLevel := by
  unfold checkCanvasPermission specCheckPermission
  cases findCanvas db canvasId with
  | none => rfl
  | some canvas =>
    by_cases hOwner : canvas.userId = userId
    · simp [hOwner]
    · by_cases hPub : canvas.isPublic = true
      · by_cases hV : requiredLevel = VIEW
        · simp [hOwner, hPub, hV]
        · cases userShare db canvasId userId <;> simp [hOwner, hPub, hV]
      · cases userShare db canvasId userId <;> simp [hOwner, hPub]

/-! ## Asset service operations (`src/lib/assets.ts`) -/

/-- `AssetError`: message plus optional code. -/
structure AssetError where
  message : String
  code : Option String
deriving DecidableEq, Repr

structure UploadRequest where
  fileName : String
  fileType : String
  fileSize : Int
deriving DecidableEq, Repr

structure AssetUploadResponse where
  uploadUrl : String
  publicUrl : String
  key : String
deriving DecidableEq, Repr

structure CreateAssetRequest where
  canvasId : String
  assetId : String
  r2Key : String
  publicUrl : String
  fileName : String
  fileType : String
  fileSize : Int
deriving DecidableEq, Repr

/-- `fileName.toLowerCase()` (ASCII, as produced by `Char.toLower`). -/
def strToLower (s : String) : String := String.mk (s.data.map Char.toLower)

/-- `validateFileType`: MIME allow-list membership of the lower-cased type. -/
def validateFileType (fileType : String) : Bool :=
  let allowedTypes := ["image/jpeg", "image/jpg", "image/png", "image/gif",
    "image/svg+xml", "image/webp", "video/mp4", "video/webm", "video/quicktime"]
  allowedTypes.contains (strToLower fileType)

/-- `validateFileSize`: `fileSize <= 10 * 1024 * 1024`. -/
def validateFileSize (fileSize : Int) : Bool :=
  let maxSize : Int := 10 * 1024 * 1024
  fileSize ≤ maxSize

/-- `fileName.replace(/[^a-zA-Z0-9.-]/g, '_')` inside `generateAssetKey`. -/
def sanitizeFileName (fileName : String) : String :=
  String.mk (fileName.data.map (fun c =>
    if c.isAlphanum || c = '.' || c = '-' then c else '_'))

/-- `generateAssetKey`: the `Date.now()` timestamp and `Math.random()`
suffix are parameters of the embedding. -/
def generateAssetKey (canvasId fileName timestamp random : String) : String :=
  "canvases/" ++ canvasId ++ "/assets/" ++ timestamp ++ "_" ++ random ++ "_" ++
    sanitizeFileName fileName

/-- `getPublicUrl`: reads `R2_PUBLIC_DOMAIN` (a parameter here); a missing
or empty (falsy) domain raises CONFIG_ERROR. -/
def getPublicUrl (domain : Option String) (key : String) : Except AssetError String :=
  match domain with
  | none => .error ⟨"R2_PUBLIC_DOMAIN not configured", some "CONFIG_ERROR"⟩
  | some d =>
    if d = "" then .error ⟨"R2_PUBLIC_DOMAIN not configured", some "CONFIG_ERROR"⟩
    else .ok ("https://" ++ d ++ "/" ++ key)

/-- Stands for the external `getSignedUrl(r2Client, PutObjectCommand ...)`
call: a pure function of the object key in this embedding. -/
def getSignedUrlPut (key : String) : String := "presigned-put:" ++ key

/-- Stands for the external `getSignedUrl(r2Client, GetObjectCommand ...)`
call. -/
def getSignedUrlGet (key : String) : String := "presigned-get:" ++ key

/-- The `prisma.canvas.findFirst` gate shared by `requestAssetUpload` and
`createAssetRecord`: canvas with the given id whose owner is the user or
on which the user holds an EDIT or ADMIN share. -/
def findCanvasWithEditAccess (db : DB) (canvasId userId : String) : Option Canvas :=
  db.canvases.find? (fun c => c.id = canvasId &&
    (c.userId = userId ||
     db.shares.any (fun s => s.canvasId = c.id && s.userId = userId &&
       (s.permissionLevel = EDIT || s.permissionLevel = ADMIN))))

/-- The `prisma.canvas.findFirst` gate shared by `getAssetByAssetId` and
`listCanvasAssets`: owner, public canvas, or any share of the user. -/
def findCanvasWithViewAccess (db : DB) (canvasId userId : String) : Option Canvas :=
  db.canvases.find? (fun c => c.id = canvasId &&
    (c.userId = userId || c.isPublic ||
     db.shares.any (fun s => s.canvasId = c.id && s.userId = userId)))

/-- `requestAssetUpload`: type and size validation, then the edit-access
gate, then key generation and the presigned PUT URL. Read-only: it writes
nothing to the database. -/
def requestAssetUpload (db : DB) (domain : Option String) (userId canvasId : String)
    (uploadRequest : UploadRequest) (timestamp random : String) :
    Except AssetError AssetUploadResponse :=
  if !(validateFileType uploadRequest.fileType) then
    .error ⟨"Unsupported file type. Supported: JPEG, PNG, GIF, SVG, WebP, MP4, WebM, MOV",
            some "INVALID_FILE_TYPE"⟩
  else if !(validateFileSize uploadRequest.fileSize) then
    .error ⟨"File size exceeds 10MB limit", some "FILE_TOO_LARGE"⟩
  else
    match findCanvasWithEditAccess db canvasId userId with
    | none => .error ⟨"Canvas not found or insufficient permissions", some "PERMISSION_DENIED"⟩
    | some _ =>
      let key := generateAssetKey canvasId uploadRequest.fileName timestamp random
      match getPublicUrl domain key with
      | .error e => .error e
      | .ok publicUrl =>
        .ok { uploadUrl := getSignedUrlPut key, publicUrl := publicUrl, key := key }

/-- `createAssetRecord`: the edit-access gate, then insert the metadata row
as given (no MIME or size validation). The database-generated row id is
the `newRowId` parameter. -/
def createAssetRecord (db : DB) (userId : String) (request : CreateAssetRequest)
    (newRowId : String) : Except AssetError (DB × CanvasAsset) :=
  match findCanvasWithEditAccess db request.canvasId userId with
  | none => .error ⟨"Canvas not found or insufficient permissions", some "PERMISSION_DENIED"⟩
  | some _ =>
    let asset : CanvasAsset :=
      { id := newRowId, canvasId := request.canvasId, assetId := request.assetId,
        r2Key := request.r2Key, publicUrl := request.publicUrl,
        fileName := request.fileName, fileType := request.fileType,
        fileSize := request.fileSize }
    .ok ({ db with assets := db.assets ++ [asset] }, asset)

/-- `prisma.canvasAsset.findUnique({ where: { id } })`. -/
def findAssetRow (db : DB) (assetRowId : String) : Option CanvasAsset :=
  db.assets.find? (fun a => a.id = assetRowId)

/-- `deleteAsset`: owner or EDIT/ADMIN share on the asset's canvas;
best-effort remote delete (always succeeding in this embedding) then row
delete. The related canvas always exists under foreign-key integrity; the
`none` branch models the unreachable lookup failure. -/
def deleteAsset (db : DB) (userId assetRowId : String) : Except AssetError DB :=
  match findAssetRow db assetRowId with
  | none => .error ⟨"Asset not found", some "NOT_FOUND"⟩
  | some asset =>
    match findCanvas db asset.canvasId with
    | none => .error ⟨"Failed to delete asset", none⟩
    | some canvas =>
      let isOwner := canvas.userId = userId
      let hasEditPermission := db.shares.any (fun s =>
        s.canvasId = asset.canvasId && s.userId = userId &&
        (s.permissionLevel = EDIT || s.permissionLevel = ADMIN))
      if !isOwner && !hasEditPermission then
        .error ⟨"Insufficient permissions to delete asset", some "PERMISSION_DENIED"⟩
      else
        .ok { db with assets := db.assets.filter (fun a => !(a.id = assetRowId)) }

/-- `getAssetByAssetId`: view-access gate (`null` on failure), then the
first asset row of the canvas with the external asset id. -/
def getAssetByAssetId (db : DB) (userId canvasId assetId : String) :
    Option CanvasAsset :=
  match findCanvasWithViewAccess db canvasId userId with
  | none => none
  | some _ => db.assets.find? (fun a => a.canvasId = canvasId && a.assetId = assetId)

/-- `listCanvasAssets`: view-access gate (NOT_FOUND on failure), then the
canvas's asset rows (the `createdAt` ordering is not modelled). -/
def listCanvasAssets (db : DB) (userId canvasId : String) :
    Except AssetError (List CanvasAsset) :=
  match findCanvasWithViewAccess db canvasId userId with
  | none => .error ⟨"Canvas not found or access denied", some "NOT_FOUND"⟩
  | some _ => .ok (db.assets.filter (fun a => a.canvasId = canvasId))

/-- `getAssetDownloadUrl`: owner, public canvas, or any share of the user
on the asset's canvas (`shares.length > 0`), then a presigned GET URL. -/
def getAssetDownloadUrl (db : DB) (userId assetRowId : String) :
    Except AssetError String :=
  match findAssetRow db assetRowId with
  | none => .error ⟨"Asset not found", some "NOT_FOUND"⟩
  | some asset =>
    match findCanvas db asset.canvasId with
    | none => .error ⟨"Failed to get asset download URL", none⟩
    | some canvas =>
      let isOwner := canvas.userId = userId
      let hasAccess := (db.shares.filter (fun s =>
        s.canvasId = asset.canvasId && s.userId = userId)).length > 0
      if !isOwner && !canvas.isPublic && !hasAccess then
        .error ⟨"Insufficient permissions to access asset", some "PERMISSION_DENIED"⟩
      else
        .ok (getSignedUrlGet asset.r2Key)

/-- The referenced-id sweep of `cleanupOrphanedAssets`: over the values of
`documentData`, collect `record.props.assetId` whenever the record, its
`props` and the `assetId` are all truthy — so a `null` record or `props`
is skipped and an empty-string `assetId` is NOT collected. -/
def referencedAssetIds (documentData : List DocRecord) : List String :=
  documentData.foldr (fun record acc =>
    match record.props with
    | none => acc
    | some props =>
      match props.assetId with
      | none => acc
      | some aid => if aid = "" then acc else aid :: acc) []

/-- `cleanupOrphanedAssets`: mark the canvas's asset rows whose external
`assetId` is not referenced from `documentData`, delete each (remote
delete always succeeding in this embedding), and return the count. -/
def cleanupOrphanedAssets (db : DB) (canvasId : String) :
    Except AssetError (DB × Nat) :=
  match findCanvas db canvasId with
  | none => .error ⟨"Canvas not found", some "NOT_FOUND"⟩
  | some canvas =>
    let canvasAssets := db.assets.filter (fun a => a.canvasId = canvasId)
    let referenced := referencedAssetIds canvas.documentData
    let orphaned := canvasAssets.filter (fun a => !(referenced.contains a.assetId))
    let db1 := { db with assets := db.assets.filter (fun a =>
      !(orphaned.any (fun o => o.id = a.id))) }
    .ok (db1, orphaned.length)

/-! ## Upload route handler (`POST /api/assets/upload`) -/

/-- The JSON response the upload route produces: HTTP status, the error
message and code of an error body, and the payload of a success body. -/
structure RouteResponse where
  status : Nat
  error : Option String
  code : Option String
  data : Option AssetUploadResponse
deriving DecidableEq, Repr

/-- The `AssetError` → HTTP status mapping in the route's catch block. -/
def assetErrorStatus (e : AssetError) : Nat :=
  if e.code = some "PERMISSION_DENIED" then 403
  else if e.code = some "INVALID_FILE_TYPE" then 400
  else if e.code = some "FILE_TOO_LARGE" then 413
  else if e.code = some "CONFIG_ERROR" then 500
  else 400

/-- The `POST /api/assets/upload` handler: body validation, then a session
requirement only for canvas ids other than `local` and `anonymous`, then
`requestAssetUpload` with the session user id or `'anonymous'`.
`sessionUserId` models `session?.user?.id` (`some ""` is falsy). -/
def uploadRoutePOST (db : DB) (domain : Option String) (sessionUserId : Option String)
    (canvasId fileName fileType : String) (fileSize : Int)
    (timestamp random : String) : RouteResponse :=
  if canvasId = "" then ⟨400, some "Canvas ID is required", some "VALIDATION_ERROR", none⟩
  else if fileName = "" then ⟨400, some "File name is required", some "VALIDATION_ERROR", none⟩
  else if fileType = "" then ⟨400, some "File type is required", some "VALIDATION_ERROR", none⟩
  else if fileSize ≤ 0 then ⟨400, some "Valid file size is required", some "VALIDATION_ERROR", none⟩
  else
    let authed : Except RouteResponse (Option String) :=
      if canvasId ≠ "local" && canvasId ≠ "anonymous" then
        match sessionUserId with
        | none => .error ⟨401, some "Unauthorized", none, none⟩
        | some uid =>
          if uid = "" then .error ⟨401, some "Unauthorized", none, none⟩
          else .ok (some uid)
      else .ok none
    match authed with
    | .error r => r
    | .ok userId? =>
      match requestAssetUpload db domain (userId?.getD "anonymous") canvasId
              ⟨fileName, fileType, fileSize⟩ timestamp random with
      | .ok resp => ⟨200, none, none, some resp⟩
      | .error e => ⟨assetErrorStatus e, some e.message, e.code, none⟩

/-! ## Helper lemmas -/

/-- If the first `p`-satisfier of a list also satisfies a predicate `q`
that implies `p` pointwise, it is also the first `q`-satisfier. -/
theorem find?_of_stronger {α : Type} {p q : α → Bool} {l : List α} {c : α}
    (hpq : ∀ x, q x = true → p x = true)
    (hfind : l.find? p = some c) (hqc : q c = true) :
    l.find? q = some c := by
  rcases List.find?_eq_some.mp hfind with ⟨_, as, bs, rfl, has⟩
  refine List.find?_eq_some.mpr ⟨hqc, as, bs, rfl, ?_⟩
  intro a ha
  have hpa := has a ha
  cases hqa : q a with
  | false => simp
  | true =>
    rw [hpq a hqa] at hpa
    simp at hpa

/-- Appending one new element behind a list with no `p`-satisfier makes it
the first `p`-satisfier. -/
theorem find?_append_last {α : Type} {l : List α} {p : α → Bool} {a : α}
    (h : l.find? p = none) (ha : p a = true) :
    (l ++ [a]).find? p = some a := by
  rw [List.find?_append, h]
  simp [List.find?_cons, ha]

/-- Filtering away the `p`-satisfiers of `l ++ [a]` removes exactly the
appended element when `l` had none. -/
theorem filter_not_append_last {α : Type} {l : List α} {p : α → Bool} {a : α}
    (h : l.find? p = none) (ha : p a = true) :
    (l ++ [a]).filter (fun x => !(p x)) = l := by
  rw [List.filter_append]
  have h1 : l.filter (fun x => !(p x)) = l := by
    refine List.filter_eq_self.mpr ?_
    intro x hx
    simp [List.find?_eq_none.mp h x hx]
  rw [h1]
  simp [List.filter_cons, ha]

/-- `find?` on rows keyed by `id` after an id-preserving rewrite of the
matching rows. -/
theorem find?_id_map_update (l : List Canvas) (canvasId : String) (f : Canvas → Canvas)
    (hf : ∀ c, (f c).id = c.id) :
    (l.map (fun c => if c.id = canvasId then f c else c)).find?
        (fun c => c.id = canvasId) =
      (l.find? (fun c => c.id = canvasId)).map f := by
  induction l with
  | nil => rfl
  | cons a t ih =>
    by_cases ha : a.id = canvasId
    · simp [List.find?_cons, ha, hf a]
    · simp only [List.map_cons, if_neg ha, List.find?_cons, decide_eq_false ha]
      exact ih

/-! ## C2 -/

def c2canvas : Canvas :=
  { id := "c1", userId := "o1", name := "A", description := none,
    isPublic := false, documentData := [], version := 1 }

def c2db : DB := { canvases := [c2canvas], shares := [], assets := [] }

/-- C2 counterexample: canvas `c1` is inaccessible to `u3` (the VIEW check
fails), yet `saveCanvas` — a canvas operation on this inaccessible canvas —
reports PERMISSION_DENIED, not NOT_FOUND. -/
theorem canvas_error_conflation_cex :
    checkCanvasPermission c2db "u3" "c1" VIEW = false ∧
    saveCanvas c2db "u3" "c1" [] none none =
      .error ⟨"Insufficient permissions to save canvas", some "PERMISSION_DENIED"⟩ ∧
    (some "PERMISSION_DENIED" : Option String) ≠ some "NOT_FOUND" := by
  refine ⟨rfl, rfl, by decide⟩

/-- C2 (amended): `loadCanvas` conflates absence and inaccessibility into
NOT_FOUND — any user failing the VIEW check, in particular one with no
share on a non-public canvas they do not own, receives NOT_FOUND — while
`saveCanvas` reports PERMISSION_DENIED whenever its EDIT check fails. -/
theorem loadCanvas_conflated_notFound (db : DB) (userId canvasId : String)
    (document : List DocRecord) (name? description? : Option String)
    (hview : checkCanvasPermission db userId canvasId VIEW = false)
    (hedit : checkCanvasPermission db userId canvasId EDIT = false) :
    loadCanvas db userId canvasId =
      .error ⟨"Canvas not found or access denied", some "NOT_FOUND"⟩ ∧
    saveCanvas db userId canvasId document name? description? =
      .error ⟨"Insufficient permissions to save canvas", some "PERMISSION_DENIED"⟩ := by
  constructor
  · unfold loadCanvas
    rw [hview]
    rfl
  · unfold saveCanvas
    rw [hedit]
    rfl

/-- C2 witness: user `u3` (no share, canvas not public, not owner)
requesting a load of canvas `c1` receives NOT_FOUND. -/
theorem loadCanvas_conflated_notFound_witness :
    loadCanvas c2db "u3" "c1" =
      .error ⟨"Canvas not found or access denied", some "NOT_FOUND"⟩ :=
  (loadCanvas_conflated_notFound c2db "u3" "c1" [] none none rfl rfl).1

/-! ## C4 -/

/-- C4: the owner of a canvas passes `checkCanvasPermission` at every
required level without any share row, and the inline owner-or-share
permission gates of the asset operations (`requestAssetUpload` /
`createAssetRecord` via `findCanvasWithEditAccess`, `getAssetByAssetId` /
`listCanvasAssets` via `findCanvasWithViewAccess`, and the per-asset
checks of `deleteAsset` and `getAssetDownloadUrl`) all admit the owner. -/
theorem owner_passes_all_gates (db : DB) (canvasId userId : String) (canvas : Canvas)
    (hC : findCanvas db canvasId = some canvas) (hO : canvas.userId = userId) :
    (∀ r : PermissionLevel, checkCanvasPermission db userId canvasId r = true) ∧
    findCanvasWithEditAccess db canvasId userId = some canvas ∧
    findCanvasWithViewAccess db canvasId userId = some canvas ∧
    (∀ assetRowId asset, findAssetRow db assetRowId = some asset →
      asset.canvasId = canvasId →
      deleteAsset db userId assetRowId =
        .ok { db with assets := db.assets.filter (fun a => !(a.id = assetRowId)) } ∧
      getAssetDownloadUrl db userId assetRowId = .ok (getSignedUrlGet asset.r2Key)) := by
  have hCu : db.canvases.find? (fun c => c.id = canvasId) = some canvas := hC
  have hid : canvas.id = canvasId := by
    have := List.find?_some hCu
    exact of_decide_eq_true this
  refine ⟨?_, ?_, ?_, ?_⟩
  · intro r
    unfold checkCanvasPermission
    rw [hC]
    simp [hO]
  · unfold findCanvasWithEditAccess
    refine find?_of_stronger ?_ hCu ?_
    · intro x hx
      simp only [Bool.and_eq_true] at hx
      exact hx.1
    · simp [hid, hO]
  · unfold findCanvasWithViewAccess
    refine find?_of_stronger ?_ hCu ?_
    · intro x hx
      simp only [Bool.and_eq_true] at hx
      exact hx.1
    · simp [hid, hO]
  · intro assetRowId asset hA hAc
    constructor
    · unfold deleteAsset
      rw [hA]
      dsimp only
      rw [hAc, hC]
      simp [hO]
    · unfold getAssetDownloadUrl
      rw [hA]
      dsimp only
      rw [hAc, hC]
      simp [hO]

def w4canvas : Canvas :=
  { id := "c1", userId := "u1", name := "A", description := none,
    isPublic := false, documentData := [], version := 1 }

def w4asset : CanvasAsset :=
  { id := "row1", canvasId := "c1", assetId := "a1", r2Key := "k1",
    publicUrl := "p1", fileName := "f1", fileType := "image/png", fileSize := 1 }

def w4db : DB := { canvases := [w4canvas], shares := [], assets := [w4asset] }

/-- C4 witness: owner `u1` of canvas `c1` (no share rows at all) passes
the ADMIN permission check, both asset-operation gates, and the per-asset
checks of delete and download on its asset. -/
theorem owner_passes_all_gates_witness :
    checkCanvasPermission w4db "u1" "c1" ADMIN = true ∧
    findCanvasWithEditAccess w4db "c1" "u1" = some w4canvas ∧
    findCanvasWithViewAccess w4db "c1" "u1" = some w4canvas ∧
    deleteAsset w4db "u1" "row1" = .ok { w4db with assets := [] } ∧
    getAssetDownloadUrl w4db "u1" "row1" = .ok (getSignedUrlGet "k1") := by
  have h := owner_passes_all_gates w4db "c1" "u1" w4canvas rfl rfl
  have h4 := h.2.2.2 "row1" w4asset rfl rfl
  exact ⟨h.1 ADMIN, h.2.1, h.2.2.1, h4.1, h4.2⟩

/-! ## C3 -/

/-- A successful `saveCanvas` found a canvas row and left behind exactly
that row rewritten by `applySave` (document, optional name/description,
version + 1). -/
theorem saveCanvas_findCanvas (db : DB) (userId canvasId : String)
    (document : List DocRecord) (name? description? : Option String)
    (db1 : DB) (meta : CanvasMetadata)
    (h : saveCanvas db userId canvasId document name? description? = .ok (db1, meta)) :
    ∃ canvas, findCanvas db canvasId = some canvas ∧
      findCanvas db1 canvasId = some (applySave canvas document name? description?) := by
  unfold saveCanvas at h
  by_cases hp : checkCanvasPermission db userId canvasId EDIT = true
  · rw [hp] at h
    simp only [Bool.not_true, Bool.false_eq_true, if_false] at h
    cases hfc : findCanvas db canvasId with
    | none =>
      rw [hfc] at h
      cases h
    | some canvas =>
      rw [hfc] at h
      dsimp only at h
      have hdb1 : db1 = updateCanvasRow db canvasId
          (fun c => applySave c document name? description?) := by
        cases h
        rfl
      refine ⟨canvas, rfl, ?_⟩
      rw [hdb1]
      unfold findCanvas updateCanvasRow
      dsimp only
      rw [find?_id_map_update db.canvases canvasId
        (fun c => applySave c document name? description?) (fun c => rfl)]
      have hfc2 : db.canvases.find? (fun c => c.id = canvasId) = some canvas := hfc
      rw [hfc2]
      rfl
  · rw [Bool.not_eq_true] at hp
    rw [hp] at h
    cases h

/-- Iterating `n` successful saves adds exactly `n` to the version of the
canvas row. -/
theorem saveCanvasN_version (editorId canvasId : String) (document : List DocRecord) :
    ∀ (n : Nat) (db db2 : DB) (v : Nat),
      (findCanvas db canvasId).map Canvas.version = some v →
      saveCanvasN editorId canvasId document n db = .ok db2 →
      (findCanvas db2 canvasId).map Canvas.version = some (v + n) := by
  intro n
  induction n with
  | zero =>
    intro db db2 v hv h
    unfold saveCanvasN at h
    cases h
    simpa using hv
  | succ n ih =>
    intro db db2 v hv h
    unfold saveCanvasN at h
    cases hs : saveCanvas db editorId canvasId document none none with
    | error e =>
      rw [hs] at h
      cases h
    | ok p =>
      obtain ⟨db1, meta⟩ := p
      rw [hs] at h
      dsimp only at h
      obtain ⟨canvas, hfc, hfc1⟩ := saveCanvas_findCanvas _ _ _ _ _ _ _ _ hs
      rw [hfc] at hv
      have hv2 : canvas.version = v := by simpa using hv
      have hv1 : (findCanvas db1 canvasId).map Canvas.version = some (v + 1) := by
        rw [hfc1]
        unfold applySave
        simp [hv2]
      have := ih db1 db2 (v + 1) hv1 h
      rw [this]
      congr 1
      omega

/-- C3: `createCanvas` initializes the version to 1, and `n` successful
saves on the created canvas yield version `1 + n`. -/
theorem create_then_saveN_version (db : DB) (ownerId newId name editorId : String)
    (description : Option String) (isPublic : Bool) (document : List DocRecord)
    (hFresh : findCanvas db newId = none) :
    (createCanvas db ownerId newId name description isPublic).2.version = 1 ∧
    ∀ n db2, saveCanvasN editorId newId document n
        (createCanvas db ownerId newId name description isPublic).1 = .ok db2 →
      (findCanvas db2 newId).map Canvas.version = some (1 + n) := by
  constructor
  · rfl
  · intro n db2 h
    have hv : (findCanvas (createCanvas db ownerId newId name description isPublic).1
        newId).map Canvas.version = some 1 := by
      unfold createCanvas findCanvas
      dsimp only
      rw [List.find?_append]
      have hFresh2 : db.canvases.find? (fun c => c.id = newId) = none := hFresh
      rw [hFresh2]
      simp [List.find?_cons]
    have := saveCanvasN_version editorId newId document n _ db2 1 hv h
    rw [this]

def w3db2 : DB :=
  { canvases := [{ id := "c1", userId := "u1", name := "A", description := none,
                   isPublic := false, documentData := [], version := 3 }],
    shares := [], assets := [] }

/-- C3 witness: creating canvas `c1` in an empty database yields version 1
and two successful saves by the owner yield version `1 + 2 = 3`. -/
theorem create_then_saveN_version_witness :
    (createCanvas ⟨[], [], []⟩ "u1" "c1" "A" none false).2.version = 1 ∧
    (findCanvas w3db2 "c1").map Canvas.version = some (1 + 2) := by
  have h := create_then_saveN_version ⟨[], [], []⟩ "u1" "c1" "A" "u1" none false [] rfl
  exact ⟨h.1, h.2 2 w3db2 rfl⟩

/-! ## C5 -/

/-- The observable outcome of sharing then unsharing: the target user's
permission check after `shareCanvas` followed by `removeCanvasShare`
(`none` when either step fails). -/
def shareUnshareCheck (db : DB) (ownerId canvasId targetUserId : String)
    (level r : PermissionLevel) : Option Bool :=
  match shareCanvas db ownerId canvasId targetUserId level with
  | .error _ => none
  | .ok (db1, _) =>
    match removeCanvasShare db1 ownerId canvasId targetUserId with
    | .error _ => none
    | .ok db2 => some (checkCanvasPermission db2 targetUserId canvasId r)

def c5db : DB :=
  { canvases := [{ id := "c1", userId := "o1", name := "A", description := none,
                   isPublic := false, documentData := [], version := 1 }],
    shares := [{ canvasId := "c1", userId := "u1", permissionLevel := EDIT,
                 sharedBy := "o1" }],
    assets := [] }

/-- C5 counterexample: user `u1` holds an EDIT share on `c1` beforehand, so
the EDIT permission check is true; after `shareCanvas` at VIEW (an upsert
that overwrites the existing row) followed by `removeCanvasShare` (which
deletes the row entirely), the EDIT check is false — access is NOT
restored to its pre-share state. -/
theorem share_unshare_cex :
    checkCanvasPermission c5db "u1" "c1" EDIT = true ∧
    shareUnshareCheck c5db "o1" "c1" "u1" VIEW EDIT = some false := ⟨rfl, rfl⟩

/-- C5 (amended): provided the target user has NO pre-existing share on
the canvas, `shareCanvas` followed by `removeCanvasShare` restores the
database exactly, hence the user's permission checks at every level. -/
theorem share_unshare_restores (db : DB) (ownerId canvasId targetUserId : String)
    (level : PermissionLevel) (db1 : DB) (sh : CanvasShare) (db2 : DB)
    (hNoPrior : userShare db canvasId targetUserId = none)
    (hShare : shareCanvas db ownerId canvasId targetUserId level = .ok (db1, sh))
    (hRemove : removeCanvasShare db1 ownerId canvasId targetUserId = .ok db2) :
    db2 = db ∧
    ∀ r, checkCanvasPermission db2 targetUserId canvasId r =
      checkCanvasPermission db targetUserId canvasId r := by
  have hNoPrior2 : db.shares.find?
      (fun s => s.canvasId = canvasId && s.userId = targetUserId) = none := hNoPrior
  unfold shareCanvas at hShare
  cases hown : findCanvasOwned db canvasId ownerId with
  | none =>
    rw [hown] at hShare
    cases hShare
  | some c0 =>
    rw [hown] at hShare
    dsimp only at hShare
    rw [hNoPrior] at hShare
    dsimp only at hShare
    have hdb1 : db1 = { db with shares := db.shares ++
        [{ canvasId := canvasId, userId := targetUserId,
           permissionLevel := level, sharedBy := ownerId }] } := by
      cases hShare
      rfl
    subst hdb1
    unfold removeCanvasShare at hRemove
    have hown1 : findCanvasOwned { db with shares := db.shares ++
        [{ canvasId := canvasId, userId := targetUserId,
           permissionLevel := level, sharedBy := ownerId }] } canvasId ownerId =
        some c0 := hown
    rw [hown1] at hRemove
    dsimp only at hRemove
    have hpnew : (fun s : CanvasShare => s.canvasId = canvasId && s.userId = targetUserId)
        { canvasId := canvasId, userId := targetUserId,
          permissionLevel := level, sharedBy := ownerId } = true := by simp
    have hshare1 : userShare { db with shares := db.shares ++
        [{ canvasId := canvasId, userId := targetUserId,
           permissionLevel := level, sharedBy := ownerId }] } canvasId targetUserId =
        some { canvasId := canvasId, userId := targetUserId,
               permissionLevel := level, sharedBy := ownerId } := by
      unfold userShare
      exact find?_append_last hNoPrior2 hpnew
    rw [hshare1] at hRemove
    dsimp only at hRemove
    injection hRemove with h2
    have hdb2eq : db2 = db := by
      rw [← h2]
      rw [filter_not_append_last hNoPrior2 hpnew]
    exact ⟨hdb2eq, by rw [hdb2eq]; intro r; rfl⟩

def w5db : DB :=
  { canvases := [{ id := "c1", userId := "o1", name := "A", description := none,
                   isPublic := false, documentData := [], version := 1 }],
    shares := [], assets := [] }

def w5sh : CanvasShare :=
  { canvasId := "c1", userId := "u1", permissionLevel := EDIT, sharedBy := "o1" }

def w5db1 : DB := { w5db with shares := [w5sh] }

def w5db2 : DB :=
  { canvases := [{ id := "c1", userId := "o1", name := "A", description := none,
                   isPublic := false, documentData := [], version := 1 }],
    shares := [], assets := [] }

/-- C5 witness: `u1` has no prior share on `c1`; sharing at EDIT then
unsharing leaves the database exactly as it started. -/
theorem share_unshare_restores_witness : w5db2 = w5db :=
  (share_unshare_restores w5db "o1" "c1" "u1" EDIT w5db1 w5sh w5db2 rfl rfl rfl).1

/-! ## C6 -/

/-- C6: an upload request whose type is outside the allow-list or whose
size exceeds the ceiling makes `requestAssetUpload` return the matching
AssetError — INVALID_FILE_TYPE when the type fails (checked first),
FILE_TOO_LARGE when the type passes but the size fails — and no response
(hence no presigned or public URL, and no key) is ever produced; the
operation writes nothing to the database in the source, so no state
changes either. -/
theorem requestAssetUpload_validation_first (db : DB) (domain : Option String)
    (userId canvasId : String) (uploadRequest : UploadRequest) (timestamp random : String)
    (h : validateFileType uploadRequest.fileType = false ∨
         validateFileSize uploadRequest.fileSize = false) :
    ∃ e : AssetError,
      requestAssetUpload db domain userId canvasId uploadRequest timestamp random =
        .error e ∧
      (e.code = some "INVALID_FILE_TYPE" ∨ e.code = some "FILE_TOO_LARGE") ∧
      (validateFileType uploadRequest.fileType = false →
        e.code = some "INVALID_FILE_TYPE") ∧
      (validateFileType uploadRequest.fileType = true →
        e.code = some "FILE_TOO_LARGE") := by
  by_cases ht : validateFileType uploadRequest.fileType = true
  · have hs : validateFileSize uploadRequest.fileSize = false := by
      rcases h with h | h
      · rw [ht] at h
        cases h
      · exact h
    refine ⟨⟨"File size exceeds 10MB limit", some "FILE_TOO_LARGE"⟩, ?_, ?_, ?_, ?_⟩
    · unfold requestAssetUpload
      rw [ht, hs]
      rfl
    · exact Or.inr rfl
    · intro hc
      rw [ht] at hc
      cases hc
    · intro _
      rfl
  · rw [Bool.not_eq_true] at ht
    refine ⟨⟨"Unsupported file type. Supported: JPEG, PNG, GIF, SVG, WebP, MP4, WebM, MOV",
             some "INVALID_FILE_TYPE"⟩, ?_, Or.inl rfl, fun _ => rfl, ?_⟩
    · unfold requestAssetUpload
      rw [ht]
      rfl
    · intro hc
      rw [ht] at hc
      cases hc

/-- C6 witness: a PDF upload request (type outside the allow-list) against
an empty database is rejected with INVALID_FILE_TYPE and yields no
response. -/
theorem requestAssetUpload_validation_first_witness :
    validateFileType "application/pdf" = false ∧
    ∃ e : AssetError,
      requestAssetUpload ⟨[], [], []⟩ none "u1" "c1"
          ⟨"f.pdf", "application/pdf", 1⟩ "t0" "r0" = .error e ∧
      e.code = some "INVALID_FILE_TYPE" := by
  refine ⟨by decide, ?_⟩
  obtain ⟨e, h1, _, h3, _⟩ :=
    requestAssetUpload_validation_first ⟨[], [], []⟩ none "u1" "c1"
      ⟨"f.pdf", "application/pdf", 1⟩ "t0" "r0" (Or.inl (by decide))
  exact ⟨e, h1, h3 (by decide)⟩

/-! ## C9 -/

/-- C9: `createAssetRecord` performs no MIME-type or file-size validation:
whenever the owner-or-edit gate admits the caller, it persists and
returns the metadata row with exactly the requested `fileType` and
`fileSize` — for EVERY type string and size, including types outside the
upload allow-list and sizes above the ceiling. -/
theorem createAssetRecord_no_validation (db : DB) (userId : String)
    (request : CreateAssetRequest) (newRowId : String) (canvas : Canvas)
    (hGate : findCanvasWithEditAccess db request.canvasId userId = some canvas) :
    ∃ asset : CanvasAsset,
      createAssetRecord db userId request newRowId =
        .ok ({ db with assets := db.assets ++ [asset] }, asset) ∧
      asset.fileType = request.fileType ∧ asset.fileSize = request.fileSize ∧
      asset.assetId = request.assetId ∧ asset.canvasId = request.canvasId := by
  unfold createAssetRecord
  simp only [hGate]
  exact ⟨_, rfl, rfl, rfl, rfl, rfl⟩

def w9canvas : Canvas :=
  { id := "c1", userId := "u1", name := "A", description := none,
    isPublic := false, documentData := [], version := 1 }

def w9db : DB := { canvases := [w9canvas], shares := [], assets := [] }

def w9req : CreateAssetRequest :=
  { canvasId := "c1", assetId := "a1", r2Key := "k1", publicUrl := "p1",
    fileName := "f.bin", fileType := "application/x-disallowed", fileSize := 104857600 }

/-- C9 witness: the owner persists an asset record with a type outside the
allow-list and a size ten times the 10MB ceiling. -/
theorem createAssetRecord_no_validation_witness :
    validateFileType "application/x-disallowed" = false ∧
    validateFileSize 104857600 = false ∧
    ∃ asset : CanvasAsset,
      createAssetRecord w9db "u1" w9req "row1" =
        .ok ({ w9db with assets := w9db.assets ++ [asset] }, asset) ∧
      asset.fileType = "application/x-disallowed" ∧ asset.fileSize = 104857600 := by
  refine ⟨by decide, by decide, ?_⟩
  obtain ⟨asset, h1, h2, h3, _, _⟩ :=
    createAssetRecord_no_validation w9db "u1" w9req "row1" w9canvas rfl
  exact ⟨asset, h1, h2, h3⟩

/-! ## C10 -/

/-- C10: the size ceiling is inclusive (exactly 10485760 bytes passes) and
has no lower bound (zero and negative sizes pass), so `requestAssetUpload`
never returns a FILE_TOO_LARGE error for a non-positive size. -/
theorem validateFileSize_inclusive_no_lower_bound (db : DB) (domain : Option String)
    (userId canvasId : String) (uploadRequest : UploadRequest) (timestamp random : String)
    (hle : uploadRequest.fileSize ≤ 0) :
    validateFileSize 10485760 = true ∧
    validateFileSize 0 = true ∧
    validateFileSize (-1) = true ∧
    validateFileSize uploadRequest.fileSize = true ∧
    ∀ e : AssetError,
      requestAssetUpload db domain userId canvasId uploadRequest timestamp random =
        .error e →
      e.code ≠ some "FILE_TOO_LARGE" := by
  have hsz : validateFileSize uploadRequest.fileSize = true := by
    unfold validateFileSize
    simp only [decide_eq_true_eq]
    omega
  refine ⟨by decide, by decide, by decide, hsz, ?_⟩
  intro e he
  unfold requestAssetUpload at he
  by_cases ht : validateFileType uploadRequest.fileType = true
  · rw [ht, hsz] at he
    simp only [Bool.not_true, Bool.false_eq_true, if_false] at he
    cases hg : findCanvasWithEditAccess db canvasId userId with
    | none =>
      rw [hg] at he
      cases he
      decide
    | some c =>
      rw [hg] at he
      dsimp only at he
      cases hd : domain with
      | none =>
        rw [hd] at he
        cases he
        decide
      | some d =>
        rw [hd] at he
        unfold getPublicUrl at he
        dsimp only at he
        by_cases hde : d = ""
        · rw [if_pos hde] at he
          dsimp only at he
          cases he
          decide
        · rw [if_neg hde] at he
          dsimp only at he
          cases he
  · rw [Bool.not_eq_true] at ht
    rw [ht] at he
    cases he
    decide

/-- C10 witness: size 0 passes validation; a zero-size request that fails
on the permission gate yields PERMISSION_DENIED, not FILE_TOO_LARGE. -/
theorem validateFileSize_inclusive_no_lower_bound_witness :
    validateFileSize 10485760 = true ∧ validateFileSize 0 = true ∧
    (AssetError.code ⟨"Canvas not found or insufficient permissions",
        some "PERMISSION_DENIED"⟩ ≠ some "FILE_TOO_LARGE") := by
  have h := validateFileSize_inclusive_no_lower_bound ⟨[], [], []⟩ none "u1" "c1"
    ⟨"f.png", "image/png", 0⟩ "t0" "r0" (by decide)
  exact ⟨h.1, h.2.1, h.2.2.2.2 _ rfl⟩

/-! ## C7 -/

def c7doc : List DocRecord := [{ props := some { assetId := some "" } }]

def c7asset : CanvasAsset :=
  { id := "row1", canvasId := "c1", assetId := "", r2Key := "k1",
    publicUrl := "p1", fileName := "f1", fileType := "image/png", fileSize := 1 }

def c7db : DB :=
  { canvases := [{ id := "c1", userId := "o1", name := "A", description := none,
                   isPublic := false, documentData := c7doc, version := 1 }],
    shares := [], assets := [c7asset] }

/-- C7 counterexample: the document's single record has
`props.assetId = ""` — so the empty string IS a `props.assetId` value of a
record in the blob — and the canvas has an asset row with that very
external id; the claim says such a referenced row is left unchanged, but
the JavaScript truthiness guard (`record.props.assetId`) skips the empty
string, so the sweep deletes the row and counts it. -/
theorem cleanup_empty_assetId_cex :
    c7db.assets = [c7asset] ∧
    (c7db.canvases.head?.map Canvas.documentData) =
      some [{ props := some { assetId := some "" } }] ∧
    c7asset.assetId = "" ∧
    cleanupOrphanedAssets c7db "c1" = .ok ({ c7db with assets := [] }, 1) :=
  ⟨rfl, rfl, rfl, rfl⟩

/-- C7 (amended): for a canvas present in the database, with unique asset
row ids, `cleanupOrphanedAssets` deletes exactly those of the canvas's
asset rows whose external `assetId` is not among the truthy (non-empty)
`props.assetId` values of the document's records, leaves every other
asset row unchanged, and returns the number of rows deleted. -/
theorem cleanupOrphanedAssets_exact (db : DB) (canvasId : String) (canvas : Canvas)
    (hc : findCanvas db canvasId = some canvas)
    (hnodup : (db.assets.map CanvasAsset.id).Nodup) :
    cleanupOrphanedAssets db canvasId =
      .ok ({ db with assets := db.assets.filter (fun a =>
               !(a.canvasId = canvasId &&
                 !((referencedAssetIds canvas.documentData).contains a.assetId))) },
           (db.assets.filter (fun a => a.canvasId = canvasId &&
               !((referencedAssetIds canvas.documentData).contains a.assetId))).length) := by
  unfold cleanupOrphanedAssets
  rw [hc]
  dsimp only
  have h1 : List.filter
      (fun a => !((referencedAssetIds canvas.documentData).contains a.assetId))
      (List.filter (fun a => a.canvasId = canvasId) db.assets) =
      List.filter (fun a => a.canvasId = canvasId &&
        !((referencedAssetIds canvas.documentData).contains a.assetId)) db.assets := by
    rw [List.filter_filter]
    exact List.filter_congr (fun x _ => Bool.and_comm _ _)
  rw [h1]
  have key : ∀ a ∈ db.assets,
      List.any (List.filter (fun x => x.canvasId = canvasId &&
          !((referencedAssetIds canvas.documentData).contains x.assetId)) db.assets)
        (fun o => o.id = a.id) =
      (a.canvasId = canvasId &&
        !((referencedAssetIds canvas.documentData).contains a.assetId)) := by
    intro a ha
    cases hQ : (decide (a.canvasId = canvasId) &&
        !((referencedAssetIds canvas.documentData).contains a.assetId)) with
    | true =>
      apply List.any_eq_true.mpr
      exact ⟨a, List.mem_filter.mpr ⟨ha, hQ⟩, by simp⟩
    | false =>
      apply List.any_eq_false.mpr
      intro o ho hid
      have ho2 := List.mem_filter.mp ho
      have hoa : o = a :=
        List.inj_on_of_nodup_map hnodup ho2.1 ha (by simpa using hid)
      rw [hoa] at ho2
      rw [ho2.2] at hQ
      cases hQ
  have h2 : List.filter (fun a =>
      !(List.any (List.filter (fun x => x.canvasId = canvasId &&
          !((referencedAssetIds canvas.documentData).contains x.assetId)) db.assets)
        (fun o => o.id = a.id))) db.assets =
      List.filter (fun a => !(a.canvasId = canvasId &&
          !((referencedAssetIds canvas.documentData).contains a.assetId))) db.assets := by
    refine List.filter_congr ?_
    intro a ha
    rw [key a ha]
  rw [h2]

def w7ref : CanvasAsset :=
  { id := "row1", canvasId := "c1", assetId := "a1", r2Key := "k1",
    publicUrl := "p1", fileName := "f1", fileType := "image/png", fileSize := 1 }

def w7orph : CanvasAsset :=
  { id := "row2", canvasId := "c1", assetId := "a2", r2Key := "k2",
    publicUrl := "p2", fileName := "f2", fileType := "image/png", fileSize := 2 }

def w7db : DB :=
  { canvases := [{ id := "c1", userId := "o1", name := "A", description := none,
                   isPublic := false,
                   documentData := [{ props := some { assetId := some "a1" } }],
                   version := 1 }],
    shares := [], assets := [w7ref, w7orph] }

/-- C7 witness: of two asset rows, the one referenced from the document
(`a1`) is kept and the unreferenced one (`a2`) is deleted and counted. -/
theorem cleanupOrphanedAssets_exact_witness :
    cleanupOrphanedAssets w7db "c1" = .ok ({ w7db with assets := [w7ref] }, 1) := by
  have h := cleanupOrphanedAssets_exact w7db "c1"
    { id := "c1", userId := "o1", name := "A", description := none,
      isPublic := false,
      documentData := [{ props := some { assetId := some "a1" } }], version := 1 }
    rfl (by decide)
  rw [h]
  rfl

/-! ## C8 -/

/-- C8: the upload route requires an authenticated session only when the
canvas id is neither the literal `local` nor `anonymous`. For those two
ids a validation-passing request proceeds identically for EVERY session
state (including none), calling `requestAssetUpload` with user id
`anonymous`; for any other id, a request without a session (or with a
falsy session user id) is answered 401 Unauthorized. -/
theorem uploadRoute_auth_requirement (db : DB) (domain : Option String)
    (sessionUserId : Option String) (canvasId fileName fileType : String)
    (fileSize : Int) (timestamp random : String)
    (hName : fileName ≠ "") (hType : fileType ≠ "") (hSize : 0 < fileSize) :
    ((canvasId = "local" ∨ canvasId = "anonymous") →
      uploadRoutePOST db domain sessionUserId canvasId fileName fileType fileSize
          timestamp random =
        match requestAssetUpload db domain "anonymous" canvasId
            ⟨fileName, fileType, fileSize⟩ timestamp random with
        | .ok resp => ⟨200, none, none, some resp⟩
        | .error e => ⟨assetErrorStatus e, some e.message, e.code, none⟩) ∧
    (canvasId ≠ "" → canvasId ≠ "local" → canvasId ≠ "anonymous" →
      (sessionUserId = none ∨ sessionUserId = some "") →
      uploadRoutePOST db domain sessionUserId canvasId fileName fileType fileSize
          timestamp random = ⟨401, some "Unauthorized", none, none⟩) := by
  have hSize2 : ¬(fileSize ≤ 0) := by omega
  constructor
  · intro hLocal
    have hCanvas : canvasId ≠ "" := by
      rcases hLocal with h | h <;> rw [h] <;> decide
    have hAuth : (canvasId ≠ "local" && canvasId ≠ "anonymous") = false := by
      rcases hLocal with h | h <;> rw [h] <;> decide
    unfold uploadRoutePOST
    rw [if_neg hCanvas, if_neg hName, if_neg hType, if_neg hSize2]
    rw [hAuth]
    rfl
  · intro hCanvas hLocal hAnon hSession
    have hAuth : (canvasId ≠ "local" && canvasId ≠ "anonymous") = true := by
      simp [hLocal, hAnon]
    unfold uploadRoutePOST
    rw [if_neg hCanvas, if_neg hName, if_neg hType, if_neg hSize2]
    rw [hAuth]
    rcases hSession with h | h <;> rw [h] <;> rfl

/-- C8 witness: with canvas id `local`, the route answers identically with
and without a session (no 401, user id `anonymous`); with a real canvas
id and no session it answers 401. -/
theorem uploadRoute_auth_requirement_witness :
    uploadRoutePOST ⟨[], [], []⟩ none (some "u9") "local" "f.png" "image/png" 1
        "t0" "r0" =
      (match requestAssetUpload ⟨[], [], []⟩ none "anonymous" "local"
          ⟨"f.png", "image/png", 1⟩ "t0" "r0" with
       | .ok resp => ⟨200, none, none, some resp⟩
       | .error e => ⟨assetErrorStatus e, some e.message, e.code, none⟩) ∧
    uploadRoutePOST ⟨[], [], []⟩ none none "c9" "f.png" "image/png" 1 "t0" "r0" =
      ⟨401, some "Unauthorized", none, none⟩ := by
  constructor
  · exact (uploadRoute_auth_requirement ⟨[], [], []⟩ none (some "u9") "local"
      "f.png" "image/png" 1 "t0" "r0" (by decide) (by decide) (by decide)).1
      (Or.inl rfl)
  · exact (uploadRoute_auth_requirement ⟨[], [], []⟩ none none "c9"
      "f.png" "image/png" 1 "t0" "r0" (by decide) (by decide) (by decide)).2
      (by decide) (by decide) (by decide) (Or.inl rfl)
